import Mathlib

/-!
# Substance Scrubber — verification of the anonymization core

Shallow embedding of the layered raster compositing and anonymization pipeline:
the six-surface set, the stroke session handlers (`handleMouseDown` /
`handleMouseUp` of `modules/eventHandlers.js`), the pixelation engine
(`modules/pixelation.js`), the pixel shuffle (`shufflePixelsSync` and the
worker's `shufflePixels`), the randomness source (`utils/crypto.js` and the
worker-local copy), rotation (`modules/rotation.js`), image loading
(`modules/imageLoader.js`) and session clearing (`main.js`).

Modelling conventions:
* Pixels are premultiplied RGBA with exact rational channels; canvas
  compositing (`source-over`, `source-in`, `destination-over`) is the exact
  Porter–Duff algebra on those channels.  A surface is a width/height pair
  with a total pixel function; `drawImage(src, 0, 0)` samples the source as
  transparent outside its bounds, which reproduces the per-canvas semantics of
  the three composite modes used by the code.
* Raw `ImageData` byte arrays are `List ℕ` of 8-bit channel values
  (RGBA order, four entries per pixel); writes clamp to 0..255 exactly as
  `Uint8ClampedArray` does for integer values.
* The randomness source is modelled by a stream (`List ℕ`) of raw draws from
  `crypto.getRandomValues`; the main-thread generator interprets a draw as a
  byte and divides by 255, the worker generator interprets it as a `Uint32`
  and divides by 2^32, exactly as the two `randomCryptoNumber` functions do.
* Browser/library operations whose pixel output the repository does not
  define (scaled `drawImage` resampling, `ImageData` encoding/decoding, the
  external stackblur `canvasRGBA`) are parameters gathered in `CanvasApi`;
  every structural decision of the repository's own code (call order, branch
  conditions, which canvases are read and written) is transcribed from the
  source.
-/

namespace SubstanceScrubber

/-! ## Pixels, surfaces and Porter–Duff compositing -/

/-- A premultiplied RGBA pixel with exact rational channels. -/
structure Pixel where
  r : ℚ
  g : ℚ
  b : ℚ
  a : ℚ
  deriving DecidableEq, Repr

/-- The fully transparent pixel: the content of a cleared or freshly resized
canvas. -/
def Pixel.transparent : Pixel := ⟨0, 0, 0, 0⟩

/-- Componentwise scaling of a premultiplied pixel. -/
def Pixel.smul (p : Pixel) (t : ℚ) : Pixel := ⟨p.r * t, p.g * t, p.b * t, p.a * t⟩

/-- Componentwise addition of premultiplied pixels. -/
def Pixel.addP (p q : Pixel) : Pixel := ⟨p.r + q.r, p.g + q.g, p.b + q.b, p.a + q.a⟩

/-- Porter–Duff `source-over` (the default `globalCompositeOperation`). -/
def compOver (src dst : Pixel) : Pixel := src.addP (dst.smul (1 - src.a))

/-- Porter–Duff `source-in`: keep the source only where the destination is
opaque; everywhere else the result is transparent. -/
def compSourceIn (src dst : Pixel) : Pixel := src.smul dst.a

/-- Porter–Duff `destination-over`: the destination stays on top, the source
fills the destination's transparent regions. -/
def compDestOver (src dst : Pixel) : Pixel := dst.addP (src.smul (1 - dst.a))

/-- A raster surface: one of the application's canvases. -/
structure Surface where
  width : ℕ
  height : ℕ
  data : ℕ → ℕ → Pixel

/-- Sampling a surface as `drawImage` does: transparent outside its bounds. -/
def Surface.sample (s : Surface) (x y : ℕ) : Pixel :=
  if x < s.width ∧ y < s.height then s.data x y else Pixel.transparent

/-- `ctx.clearRect(0, 0, canvas.width, canvas.height)`. -/
def Surface.clearAll (s : Surface) : Surface :=
  { s with data := fun _ _ => Pixel.transparent }

/-- `dstCtx.drawImage(src, 0, 0)` under the composite operation `comp`,
applied over the whole destination (canvas composite modes act on the full
canvas, with the source sampled as transparent outside its bounds). -/
def drawImage (comp : Pixel → Pixel → Pixel) (dst src : Surface) : Surface :=
  { dst with data := fun x y => comp (src.sample x y) (dst.data x y) }

/-! ## Randomness source — `utils/crypto.js` and the worker-local copy -/

/-- Pop the next raw draw from the `crypto.getRandomValues` stream
(0 for an exhausted stream). -/
def popByte : List ℕ → ℕ × List ℕ
  | [] => (0, [])
  | b :: rest => (b, rest)

/-- Main-thread `randomCryptoNumber` (`utils/crypto.js`): a random byte
`buf[0]` divided by 255.  Note the divisor: the result ranges over the
CLOSED interval `[0, 1]`, reaching exactly 1 at byte 255. -/
def randomCryptoNumber (b : ℕ) : ℚ := ((b % 256 : ℕ) : ℚ) / 255

/-- Main-thread `negativeOrPositive` (`utils/crypto.js`):
`randomCryptoNumber() < 0.5 ? -1 : 1`. -/
def negativeOrPositive (b : ℕ) : ℤ :=
  if randomCryptoNumber b < 1 / 2 then -1 else 1

/-- Worker `randomCryptoNumber` (`workers/pixelShuffle.worker.js`): a random
`Uint32` divided by `0xffffffff + 1 = 2^32`; always strictly below 1. -/
def workerRandomCryptoNumber (n : ℕ) : ℚ :=
  ((n % 4294967296 : ℕ) : ℚ) / 4294967296

/-- Worker `negativeOrPositive`: `randomCryptoNumber() > 0.5 ? 1 : -1`. -/
def workerNegativeOrPositive (n : ℕ) : ℤ :=
  if workerRandomCryptoNumber n > 1 / 2 then 1 else -1

/-- The pair of generator functions a shuffle implementation draws from:
the main thread and the worker each have their own copies. -/
structure RngModel where
  rand : ℕ → ℚ
  sgn : ℕ → ℤ

/-- The main-thread generator pair (used by `shufflePixelsSync`). -/
def mainRng : RngModel := ⟨randomCryptoNumber, negativeOrPositive⟩

/-- The worker generator pair (used by the worker's `shufflePixels`). -/
def workerRng : RngModel := ⟨workerRandomCryptoNumber, workerNegativeOrPositive⟩

/-! ## Arithmetic helpers shared with the source -/

/-- JavaScript `Math.round`: round half toward positive infinity. -/
def jsRound (q : ℚ) : ℤ := Int.floor (q + 1 / 2)

/-- Writing an integer into a `Uint8ClampedArray` slot clamps it to 0..255. -/
def clampByte (z : ℤ) : ℕ := (min 255 (max 0 z)).toNat

/-- `scale` from `utils/crypto.js`: linear range remapping, returning `outMin`
on a zero-width input range. -/
def scale (num inMin inMax outMin outMax : ℚ) : ℚ :=
  if inMin = inMax then outMin
  else (num - inMin) * (outMax - outMin) / (inMax - inMin) + outMin

/-! ## Constants — `utils/constants.js` -/

def SHUFFLE_RANGE_DIVISOR : ℚ := 100

def PIXEL_NOISE_RANGE : ℚ := 3

def MAX_IMAGE_DIMENSION : ℕ := 2500

def PIXELATION_MIN_DIMENSION : ℚ := 10

def PIXELATION_BASE_DIMENSION : ℚ := 2500

/-- `MIN_PIXELATION_SCALE = 0.015`. -/
def MIN_PIXELATION_SCALE : ℚ := 3 / 200

/-- `MAX_PIXELATION_SCALE = 0.1`. -/
def MAX_PIXELATION_SCALE : ℚ := 1 / 10

/-! ## Pixel shuffle — `shufflePixelsSync` (modules/pixelation.js) and
`shufflePixels` (workers/pixelShuffle.worker.js).  The two bodies are
line-for-line identical; they differ only in their local `randomCryptoNumber`
/ `negativeOrPositive` implementations, so both instantiate one core. -/

/-- An entry of `holderArray`: the byte offset of an active pixel in the
`ImageData` array together with its original R, G, B values. -/
structure ActiveEntry where
  idx : ℕ
  r : ℕ
  g : ℕ
  b : ℕ
  deriving DecidableEq, Repr

/-- First pass of the shuffle: walk the RGBA array four bytes at a time and
collect every pixel whose `red + green + blue !== 0` (the mask-activity rule),
recording its byte offset and original RGB values. -/
def collectActive : List ℕ → ℕ → List ActiveEntry
  | r :: g :: b :: _a :: rest, i =>
    (if r + g + b ≠ 0 then [⟨i, r, g, b⟩] else []) ++ collectActive rest (i + 4)
  | _, _ => []

/-- One call of `randomCryptoNumber()` against the draw stream. -/
def drawRand (m : RngModel) (rng : List ℕ) : ℚ × List ℕ :=
  let p := popByte rng
  (m.rand p.1, p.2)

/-- One call of `negativeOrPositive()` against the draw stream. -/
def drawSign (m : RngModel) (rng : List ℕ) : ℤ × List ℕ :=
  let p := popByte rng
  (m.sgn p.1, p.2)

/-- `Math.floor(randomCryptoNumber() * maxOffset * negativeOrPositive())`:
the random shuffle offset for one active pixel. -/
def shuffleOffset (m : RngModel) (maxOffset : ℚ) (rng : List ℕ) : ℤ × List ℕ :=
  let u := drawRand m rng
  let s := drawSign m u.2
  (Int.floor (u.1 * maxOffset * (s.1 : ℚ)), s.2)

/-- Bounds check of the shuffle: `randomElement = x + offset`; if it falls
outside `[0, holderArray.length)` the current index `x` is used instead. -/
def safeElement (len x : ℕ) (off : ℤ) : ℕ :=
  let randomElement : ℤ := (x : ℤ) + off
  if (len : ℤ) ≤ randomElement ∨ randomElement < 0 then x else randomElement.toNat

/-- One channel write of the shuffle:
`holderArray[safeElement][k] + Math.round(randomCryptoNumber() *
negativeOrPositive() * noiseRange)`, clamped by the `Uint8ClampedArray`
assignment. -/
def noisyChannel (m : RngModel) (noiseRange : ℚ) (pre : ℕ) (rng : List ℕ) :
    ℕ × List ℕ :=
  let u := drawRand m rng
  let s := drawSign m u.2
  (clampByte ((pre : ℤ) + jsRound (u.1 * (s.1 : ℚ) * noiseRange)), s.2)

/-- The body of one iteration of the shuffle loop: draw the offset, resolve
the (bounds-checked) source entry, and write the three noisy channels of the
source entry's original RGB into the current entry's array slot.  `holder` is
the pass-one snapshot, so reads are never affected by earlier writes, exactly
as in the source. -/
def shuffleWrite (m : RngModel) (holder : List ActiveEntry)
    (maxOffset noiseRange : ℚ) (st : List ℕ × List ℕ) (x : ℕ) :
    List ℕ × List ℕ :=
  let o := shuffleOffset m maxOffset st.2
  let safe := safeElement holder.length x o.1
  let dstE := holder.getD x ⟨0, 0, 0, 0⟩
  let srcE := holder.getD safe ⟨0, 0, 0, 0⟩
  let c1 := noisyChannel m noiseRange srcE.r o.2
  let c2 := noisyChannel m noiseRange srcE.g c1.2
  let c3 := noisyChannel m noiseRange srcE.b c2.2
  (((st.1.set dstE.idx c1.1).set (dstE.idx + 1) c2.1).set (dstE.idx + 2) c3.1,
    c3.2)

/-- The shared shuffle algorithm: collect active pixels, then for each list
index `x` swap in a bounded-neighbourhood source pixel and add noise.
`maxOffset = max(canvasWidth, canvasHeight) / shuffleRangeDivisor` is
loop-invariant in the source and hoisted here. -/
def shufflePixelsCore (m : RngModel) (arr : List ℕ)
    (canvasWidth canvasHeight : ℕ) (shuffleRangeDivisor noiseRange : ℚ)
    (rng : List ℕ) : List ℕ :=
  let biggerDimension : ℚ := max (canvasWidth : ℚ) (canvasHeight : ℚ)
  let maxOffset := biggerDimension / shuffleRangeDivisor
  let holder := collectActive arr 0
  ((List.range holder.length).foldl
    (shuffleWrite m holder maxOffset noiseRange) (arr, rng)).1

/-- `shufflePixelsSync` (modules/pixelation.js): the main-thread fallback,
using the main-thread generator and the configured constants. -/
def shufflePixelsSync (arr : List ℕ) (canvasWidth canvasHeight : ℕ)
    (rng : List ℕ) : List ℕ :=
  shufflePixelsCore mainRng arr canvasWidth canvasHeight
    SHUFFLE_RANGE_DIVISOR PIXEL_NOISE_RANGE rng

/-- `shufflePixels` (workers/pixelShuffle.worker.js): the worker
implementation, using the worker generator and the message parameters. -/
def shufflePixels (arr : List ℕ) (canvasWidth canvasHeight : ℕ)
    (shuffleRangeDivisor noiseRange : ℚ) (rng : List ℕ) : List ℕ :=
  shufflePixelsCore workerRng arr canvasWidth canvasHeight
    shuffleRangeDivisor noiseRange rng

/-! ## Browser / library boundary -/

/-- The pixel-producing operations the repository delegates to the browser or
to external libraries.  Each field only determines pixel CONTENT; which
surface is read or written, and when, is fixed by the embedded code.
`scaleDraw src w h x y` is the content at `(x, y)` of
`ctx.drawImage(src, 0, 0, w, h)`; `regionDraw src sw sh dw dh x y` the content
of `ctx.drawImage(src, 0, 0, sw, sh, 0, 0, dw, dh)`; `encode` / `decode` the
`getImageData` / `putImageData` byte conversion; `blurData` the external
stackblur `canvasRGBA`, which blurs a canvas in place and never resizes it. -/
structure CanvasApi where
  scaleDraw : Surface → ℕ → ℕ → ℕ → ℕ → Pixel
  regionDraw : Surface → ℕ → ℕ → ℕ → ℕ → ℕ → ℕ → Pixel
  encode : Surface → ℕ → ℕ → List ℕ
  decode : List ℕ → ℕ → ℕ → ℕ → ℕ → Pixel
  blurData : ℚ → Surface → ℕ → ℕ → Pixel

/-! ## Anonymization engine — `pixelateCanvas` (modules/pixelation.js) -/

/-- Result of `pixelateCanvas`: the (possibly updated) input canvas and
offscreen canvas, plus whether the degenerate-geometry early return was taken
(the `console.warn` path — invisible to the caller in the source, recorded
here so theorems can name it). -/
structure PixelateResult where
  inCanvas : Surface
  offscreen : Surface
  skipped : Bool

/-- The downsample dimensions of `pixelateCanvas`:
`size = scale(max(w, h), PIXELATION_MIN_DIMENSION, PIXELATION_BASE_DIMENSION,
MAX_PIXELATION_SCALE, MIN_PIXELATION_SCALE)`, then
`w' = Math.floor(width * size)`, `h' = Math.floor(height * size)`. -/
def pixelateDims (inW inH : ℕ) : ℤ × ℤ :=
  let biggerDimension : ℚ := max (inW : ℚ) (inH : ℚ)
  let size := scale biggerDimension PIXELATION_MIN_DIMENSION
    PIXELATION_BASE_DIMENSION MAX_PIXELATION_SCALE MIN_PIXELATION_SCALE
  (Int.floor ((inW : ℚ) * size), Int.floor ((inH : ℚ) * size))

/-- `pixelateCanvas` (modules/pixelation.js).  If the computed downsample
dimensions fall below one pixel it returns before touching any canvas
(`skipped = true`).  Otherwise: resize the offscreen canvas to the input's
dimensions (which clears it), downsample-draw the input into it, upsample the
result back over the input, run the shuffle over the downsampled pixel data
(the worker algorithm; the sync fallback is the identical algorithm), write
the shuffled data back, and upsample-draw again.  The source's
`offscreenCtx.scale(w * size, h * size)` call only alters the context
transform, which `putImageData` ignores and no later `drawImage` on that
context uses, so it has no modelled effect (the source itself flags it as a
leftover HACK). -/
def pixelateCanvas (api : CanvasApi) (rng : List ℕ)
    (inCanvas offscreenCanvas mainCanvas : Surface) : PixelateResult :=
  let dims := pixelateDims inCanvas.width inCanvas.height
  if dims.1 < 1 ∨ dims.2 < 1 then ⟨inCanvas, offscreenCanvas, true⟩
  else
    let w := dims.1.toNat
    let h := dims.2.toNat
    let off1 : Surface := ⟨inCanvas.width, inCanvas.height, fun _ _ => Pixel.transparent⟩
    let off2 : Surface :=
      ⟨off1.width, off1.height, fun x y =>
        if x < w ∧ y < h then compOver (api.scaleDraw inCanvas w h x y) (off1.data x y)
        else off1.data x y⟩
    let in2 : Surface :=
      ⟨inCanvas.width, inCanvas.height, fun x y =>
        compOver (api.regionDraw off2 w h inCanvas.width inCanvas.height x y) (inCanvas.data x y)⟩
    let pixelArray := api.encode off2 w h
    let shuffledData := shufflePixels pixelArray mainCanvas.width mainCanvas.height
      SHUFFLE_RANGE_DIVISOR PIXEL_NOISE_RANGE rng
    let off3 : Surface :=
      ⟨off2.width, off2.height, fun x y =>
        if x < w ∧ y < h then api.decode shuffledData w h x y else off2.data x y⟩
    let in3 : Surface :=
      ⟨in2.width, in2.height, fun x y =>
        compOver (api.regionDraw off3 w h in2.width in2.height x y) (in2.data x y)⟩
    ⟨in3, off3, false⟩

/-! ## Application state and stroke handlers — `modules/eventHandlers.js` -/

/-- `state.painting`: the three painting modes. -/
inductive Mode
  | blur
  | paint
  | undo
  deriving DecidableEq, Repr

/-- The pipeline actions `handleMouseUp` performs after a non-paint stroke, in
order: seed the workspace from the original (`blurredCtx.drawImage(rotationCanvas)`),
run `pixelateCanvas`, run the stackblur with the effective radius, mask the
workspace through the stroke mask (`source-in`), and rebuild the composite
from mask + snapshot. -/
inductive Step
  | seedWorkspace
  | pixelate
  | blur (radius : ℚ)
  | maskWorkspace
  | rebuildComposite
  deriving DecidableEq, Repr

/-- The application state the claims touch: the six surfaces
(`canvas` = composite, `temp` = mask, `holder` = snapshot, `rotation` =
original, `blurred` = workspace, `offscreen` = scratch), the painting mode and
blur radius, the stroke-session flag `isDown` and the rotation lock
`rotating`.  Pointer coordinates are omitted: they only parameterize the
brush geometry, which theorems quantify over as arbitrary drawn surfaces. -/
structure AppState where
  canvas : Surface
  temp : Surface
  holder : Surface
  rotation : Surface
  blurred : Surface
  offscreen : Surface
  painting : Mode
  blurAmount : ℚ
  isDown : Bool
  rotating : Bool

/-- `handleMouseDown`: clear the snapshot and copy the composite into it,
clear the mask, and activate the stroke session.  The source consults no
rotation lock here. -/
def handleMouseDown (st : AppState) : AppState :=
  { st with
    holder := drawImage compOver st.holder.clearAll st.canvas
    temp := st.temp.clearAll
    isDown := true }

/-- The pointer-move phase of a stroke: the brush draws onto the composite
and the mask.  The drawn surfaces are arbitrary parameters (the brush
geometry is irrelevant to the claims); the snapshot is untouched, as in the
source. -/
def applyStrokeDrawing (dC dT : Surface) (st : AppState) : AppState :=
  { st with canvas := dC, temp := dT }

/-- `handleMouseUp`: deactivate the session; in paint mode do nothing more.
Otherwise save the blur radius, zero it in undo mode, seed the workspace from
the original, run `pixelateCanvas` unless the mode is undo, blur the
workspace, mask it through the stroke mask with `source-in`, rebuild the
composite (clear, draw mask content, then `destination-over` the snapshot),
and restore the saved blur radius.  Also returns the list of pipeline steps
executed, in order. -/
def handleMouseUp (api : CanvasApi) (rng : List ℕ) (st : AppState) :
    AppState × List Step :=
  let st0 := { st with isDown := false }
  if st0.painting = Mode.paint then (st0, [])
  else
    let tempBlurAmount := st0.blurAmount
    let blurAmt := if st0.painting = Mode.undo then 0 else st0.blurAmount
    let blurred1 := drawImage compOver st0.blurred st0.rotation
    let pix :=
      if st0.painting ≠ Mode.undo then
        let res := pixelateCanvas api rng blurred1 st0.offscreen st0.canvas
        (res.inCanvas, res.offscreen, [Step.seedWorkspace, Step.pixelate])
      else (blurred1, st0.offscreen, [Step.seedWorkspace])
    let blurred2 := { pix.1 with data := api.blurData blurAmt pix.1 }
    let temp2 := drawImage compSourceIn st0.temp blurred2
    let canvas2 := drawImage compOver st0.canvas.clearAll temp2
    let canvas3 := drawImage compDestOver canvas2 st0.holder
    ({ st0 with
        canvas := canvas3
        temp := temp2
        blurred := blurred2
        offscreen := pix.2.1
        blurAmount := tempBlurAmount },
      pix.2.2 ++ [Step.blur blurAmt, Step.maskWorkspace, Step.rebuildComposite])

/-! ## Rotation — `rotateCanvas` (modules/rotation.js) -/

/-- Point sample of a surface at exact rational coordinates; transparent
outside the surface or off the integer grid.  This idealizes the browser's
rasterizer for a `drawImage` under a rational affine transform. -/
def ratSample (img : Surface) (u v : ℚ) : Pixel :=
  if 0 ≤ u ∧ u < (img.width : ℚ) ∧ 0 ≤ v ∧ v < (img.height : ℚ)
      ∧ u.den = 1 ∧ v.den = 1 then
    img.data u.num.toNat v.num.toNat
  else Pixel.transparent

/-- `ctx.translate(cw, ch / cw); ctx.rotate(Math.PI / 2);
ctx.drawImage(img, 0, 0)` onto a freshly resized (hence cleared) `cw × ch`
canvas: image texel `(u, v)` lands at device `(cw - v, ch / cw + u)`, so
device pixel `(x, y)` samples `(y - ch / cw, cw - x)`.  Note the source's
translate uses `ch / cw` where a clean rotation would use 0 (flagged as a
HACK in the source); the transform is transcribed as written. -/
def rotateDraw (img : Surface) (cw ch : ℕ) : Surface :=
  ⟨cw, ch, fun x y =>
    ratSample img ((y : ℚ) - (ch : ℚ) / (cw : ℚ)) ((cw : ℚ) - (x : ℚ))⟩

/-- `rotateCanvas` (modules/rotation.js): rejected outright while the
`rotating` lock is held.  Otherwise: capture the composite, mask and original
as images (the workspace is also captured but never drawn — the source draws
`rotationImageData` into the blurred canvas, a flagged FIXME), swap the
dimensions, resize the five canvases `canvas, tempCanvas, holderCanvas,
rotationCanvas, blurredCanvas` (which clears them; `offscreenCanvas` is not
in the list), and redraw each EXCEPT the holder, which is never redrawn.
The lock is set at entry and released in the onload callback, so it is `false`
again in the resulting state. -/
def rotateCanvas (st : AppState) : AppState :=
  if st.rotating then st
  else
    let myImageData := st.canvas
    let tempImageData := st.temp
    let rotationImageData := st.rotation
    let cw := st.canvas.height
    let ch := st.canvas.width
    { st with
      canvas := rotateDraw myImageData cw ch
      temp := rotateDraw tempImageData cw ch
      holder := ⟨cw, ch, fun _ _ => Pixel.transparent⟩
      rotation := rotateDraw rotationImageData cw ch
      blurred := rotateDraw rotationImageData cw ch
      rotating := false }

/-! ## Image loading and session clearing — `modules/imageLoader.js`, `main.js` -/

/-- The canvas dimensions `loadImage` computes: images exceeding
`MAX_IMAGE_DIMENSION` in either direction are scaled down by
`min(MAX / width, MAX / height)` with `Math.floor`. -/
def loadImageDims (w0 h0 : ℕ) : ℕ × ℕ :=
  if MAX_IMAGE_DIMENSION < w0 ∨ MAX_IMAGE_DIMENSION < h0 then
    let sc : ℚ := min ((MAX_IMAGE_DIMENSION : ℚ) / (w0 : ℚ))
      ((MAX_IMAGE_DIMENSION : ℚ) / (h0 : ℚ))
    ((Int.floor ((w0 : ℚ) * sc)).toNat, (Int.floor ((h0 : ℚ) * sc)).toNat)
  else (w0, h0)

/-- `loadImage` (modules/imageLoader.js): reject degenerate images, compute
the scaled dimensions, resize the five canvases `canvas, tempCanvas,
rotationCanvas, blurredCanvas, holderCanvas` (clearing them;
`offscreenCanvas` is not in the list), then draw the image scaled onto the
composite and the original. -/
def loadImage (api : CanvasApi) (img : Surface) (st : AppState) :
    Option AppState :=
  if img.width = 0 ∨ img.height = 0 then none
  else
    let wh := loadImageDims img.width img.height
    let w := wh.1
    let h := wh.2
    let blank : Surface := ⟨w, h, fun _ _ => Pixel.transparent⟩
    let drawn : Surface :=
      ⟨w, h, fun x y =>
        if x < w ∧ y < h then compOver (api.scaleDraw img w h x y) Pixel.transparent
        else Pixel.transparent⟩
    some { st with
      canvas := drawn
      temp := blank
      holder := blank
      rotation := drawn
      blurred := blank }

/-- `clearSession` (main.js): resize all six canvases to 1×1 and clear them. -/
def clearSession (st : AppState) : AppState :=
  let one : Surface := ⟨1, 1, fun _ _ => Pixel.transparent⟩
  { st with
    canvas := one
    temp := one
    holder := one
    rotation := one
    blurred := one
    offscreen := one }

/-! ## Dimension invariants -/

/-- The five surfaces that `loadImage` and `rotateCanvas` manage share the
composite's dimensions. -/
def fiveSameDims (st : AppState) : Prop :=
  st.temp.width = st.canvas.width ∧ st.temp.height = st.canvas.height ∧
  st.holder.width = st.canvas.width ∧ st.holder.height = st.canvas.height ∧
  st.rotation.width = st.canvas.width ∧ st.rotation.height = st.canvas.height ∧
  st.blurred.width = st.canvas.width ∧ st.blurred.height = st.canvas.height

instance (st : AppState) : Decidable (fiveSameDims st) := by
  unfold fiveSameDims; infer_instance

/-- All six surfaces, the scratch buffer included, share the composite's
dimensions. -/
def allSixSameDims (st : AppState) : Prop :=
  fiveSameDims st ∧ st.offscreen.width = st.canvas.width ∧
  st.offscreen.height = st.canvas.height

instance (st : AppState) : Decidable (allSixSameDims st) := by
  unfold allSixSameDims; infer_instance

/-! ## Concrete instances used by counterexamples and witnesses -/

/-- A concrete `CanvasApi` instance: resampling draws reuse the source pixel
grid and the blur leaves pixels unchanged (stackblur is the identity at
radius 0 and on constant-colour content). -/
def idApi : CanvasApi where
  scaleDraw := fun s _ _ x y => s.data x y
  regionDraw := fun s _ _ _ _ x y => s.data x y
  encode := fun _ _ _ => []
  decode := fun _ _ _ _ _ => Pixel.transparent
  blurData := fun _ s x y => s.data x y

def whitePx : Pixel := ⟨1, 1, 1, 1⟩

def redPx : Pixel := ⟨1, 0, 0, 1⟩

def blackPx : Pixel := ⟨0, 0, 0, 1⟩

def solidSurface (w h : ℕ) (p : Pixel) : Surface := ⟨w, h, fun _ _ => p⟩

/-- A 1×1 session in undo mode, mid-stroke. -/
def undoStroke : AppState where
  canvas := solidSurface 1 1 whitePx
  temp := solidSurface 1 1 blackPx
  holder := solidSurface 1 1 whitePx
  rotation := solidSurface 1 1 redPx
  blurred := solidSurface 1 1 Pixel.transparent
  offscreen := solidSurface 1 1 Pixel.transparent
  painting := Mode.undo
  blurAmount := 75
  isDown := true
  rotating := false

/-- A 2×1 idle state captured while the rotation lock is held. -/
def rotatingState : AppState where
  canvas := solidSurface 2 1 redPx
  temp := solidSurface 2 1 blackPx
  holder := solidSurface 2 1 whitePx
  rotation := solidSurface 2 1 redPx
  blurred := solidSurface 2 1 redPx
  offscreen := solidSurface 2 1 Pixel.transparent
  painting := Mode.blur
  blurAmount := 75
  isDown := false
  rotating := true

/-! ## C10 — the blur radius is restored after every completed stroke -/

/-- C10: after `handleMouseUp` returns, the configured blur radius equals its
value when the pointer-up began; the temporary zeroing used by undo mode is
not observable in the final state, in any painting mode. -/
theorem C10_blur_radius_restored (api : CanvasApi) (rng : List ℕ)
    (st : AppState) :
    (handleMouseUp api rng st).1.blurAmount = st.blurAmount := by
  unfold handleMouseUp
  by_cases h : st.painting = Mode.paint <;> simp [h]

/-! ## C1 — what the pipeline executes in undo mode -/

/-- C1 counterexample: for a stroke completing in undo mode, the pixelation
(and with it the shuffle and noise) step is NOT executed: `handleMouseUp`
guards the `pixelateCanvas` call with `state.painting !== 'undo'`. -/
theorem C1_counterexample :
    Step.pixelate ∉ (handleMouseUp idApi [] undoStroke).2 := by
  decide

/-- C1 amended: a stroke completing in undo mode skips the pixelation,
shuffle and noise steps entirely and runs the blur step with radius forced to
0; the pixelation step runs only when the mode is blur. -/
theorem C1_undo_mode_pipeline (api : CanvasApi) (rng : List ℕ) (st : AppState) :
    (st.painting = Mode.undo →
      Step.pixelate ∉ (handleMouseUp api rng st).2 ∧
      Step.blur 0 ∈ (handleMouseUp api rng st).2 ∧
      Step.seedWorkspace ∈ (handleMouseUp api rng st).2 ∧
      Step.maskWorkspace ∈ (handleMouseUp api rng st).2) ∧
    (st.painting = Mode.blur →
      Step.pixelate ∈ (handleMouseUp api rng st).2) := by
  unfold handleMouseUp
  constructor
  · intro h
    simp [h]
  · intro h
    simp [h]

/-- C1 witness: the amended theorem applied to the concrete undo-mode
session. -/
theorem C1_undo_mode_pipeline_witness :
    Step.pixelate ∉ (handleMouseUp idApi [] undoStroke).2 ∧
    Step.blur 0 ∈ (handleMouseUp idApi [] undoStroke).2 := by
  have h := (C1_undo_mode_pipeline idApi [] undoStroke).1 rfl
  exact ⟨h.1, h.2.1⟩

/-! ## C7 — range of the randomness source -/

/-- C7: the claim (and the function's own JSDoc) promises `[0, 1)`, but the
main-thread `randomCryptoNumber` divides a random byte by 255, so the draw
`buf[0] = 255` yields exactly 1.  The worker implementation divides a
`Uint32` by `2^32` and is always strictly below 1. -/
theorem C7_main_rng_reaches_one :
    randomCryptoNumber 255 = 1 ∧
    (∀ b : ℕ, 0 ≤ randomCryptoNumber b ∧ randomCryptoNumber b ≤ 1) ∧
    (∀ n : ℕ, 0 ≤ workerRandomCryptoNumber n ∧ workerRandomCryptoNumber n < 1) := by
  refine ⟨by norm_num [randomCryptoNumber], fun b => ⟨?_, ?_⟩, fun n => ⟨?_, ?_⟩⟩
  · unfold randomCryptoNumber
    positivity
  · unfold randomCryptoNumber
    rw [div_le_one (by norm_num)]
    exact_mod_cast Nat.le_of_lt_succ (Nat.mod_lt _ (by norm_num))
  · unfold workerRandomCryptoNumber
    positivity
  · unfold workerRandomCryptoNumber
    rw [div_lt_one (by norm_num)]
    exact_mod_cast Nat.mod_lt _ (by norm_num)

/-! ## C8 — the rotation lock and pointer-down -/

/-- C8 counterexample: with the rotation lock held (`rotating = true`), a
pointer-down is NOT rejected: the session becomes active (`isDown = true`),
the snapshot is overwritten with the composite, and the mask is cleared —
`handleMouseDown` never consults the lock. -/
theorem C8_counterexample :
    rotatingState.rotating = true ∧
    (handleMouseDown rotatingState).isDown = true ∧
    (handleMouseDown rotatingState).holder.data 0 0 ≠ rotatingState.holder.data 0 0 ∧
    (handleMouseDown rotatingState).temp.data 0 0 ≠ rotatingState.temp.data 0 0 := by
  refine ⟨rfl, rfl, ?_, ?_⟩ <;>
    simp [handleMouseDown, rotatingState, drawImage, Surface.sample,
      Surface.clearAll, solidSurface, compOver, Pixel.addP, Pixel.smul,
      Pixel.transparent, redPx, whitePx, blackPx]

/-- C8 amended: the boolean lock rejects only concurrent rotations
(`rotateCanvas` is a no-op while it is held); a pointer-down during rotation
still proceeds: the session activates, the snapshot is taken from the
composite, and the mask is cleared, with the lock left untouched. -/
theorem C8_lock_only_guards_rotation (st : AppState) (h : st.rotating = true) :
    rotateCanvas st = st ∧
    (handleMouseDown st).isDown = true ∧
    (handleMouseDown st).holder = drawImage compOver st.holder.clearAll st.canvas ∧
    (handleMouseDown st).temp = st.temp.clearAll ∧
    (handleMouseDown st).rotating = st.rotating := by
  refine ⟨?_, rfl, rfl, rfl, rfl⟩
  unfold rotateCanvas
  simp [h]

/-- C8 witness: the amended theorem applied to the concrete locked state. -/
theorem C8_lock_only_guards_rotation_witness :
    rotateCanvas rotatingState = rotatingState ∧
    (handleMouseDown rotatingState).isDown = true := by
  have h := C8_lock_only_guards_rotation rotatingState rfl
  exact ⟨h.1, h.2.1⟩

/-! ## Porter–Duff algebra lemmas -/

theorem compSourceIn_transparent (p : Pixel) :
    compSourceIn p Pixel.transparent = Pixel.transparent := by
  simp [compSourceIn, Pixel.smul, Pixel.transparent]

theorem compOver_transparent_left (q : Pixel) :
    compOver Pixel.transparent q = q := by
  simp [compOver, Pixel.addP, Pixel.smul, Pixel.transparent]

theorem compOver_transparent_right (p : Pixel) :
    compOver p Pixel.transparent = p := by
  simp [compOver, Pixel.addP, Pixel.smul, Pixel.transparent]

theorem compDestOver_transparent_right (p : Pixel) :
    compDestOver p Pixel.transparent = p := by
  simp [compDestOver, Pixel.addP, Pixel.smul, Pixel.transparent]

/-! ## C2 — mask fidelity: untouched pixels revert to the snapshot -/

/-- C2: for any blur- or undo-mode stroke (any mid-stroke drawing `dC`, `dT`
on composite and mask, any browser resampler/blur, any randomness), every
composite pixel at which the final stroke mask is transparent — i.e. outside
the active region — is bit-identical after `handleMouseUp` to the composite
at the moment of `handleMouseDown` (the snapshot). -/
theorem C2_outside_mask_reverts_to_snapshot (api : CanvasApi) (rng : List ℕ)
    (s0 : AppState) (dC dT : Surface) (x y : ℕ)
    (hmode : ¬ s0.painting = Mode.paint)
    (hx : x < s0.canvas.width) (hy : y < s0.canvas.height)
    (hw : s0.holder.width = s0.canvas.width)
    (hh : s0.holder.height = s0.canvas.height)
    (hmask : dT.data x y = Pixel.transparent) :
    (handleMouseUp api rng (applyStrokeDrawing dC dT (handleMouseDown s0))).1.canvas.data x y
      = s0.canvas.data x y := by
  unfold handleMouseUp applyStrokeDrawing handleMouseDown
  dsimp only
  rw [if_neg hmode]
  dsimp only [drawImage, Surface.clearAll, Surface.sample]
  rw [hmask, compSourceIn_transparent]
  simp only [ite_self, compOver_transparent_left, compDestOver_transparent_right,
    compOver_transparent_right, hw, hh]
  rw [if_pos ⟨hx, hy⟩, if_pos ⟨hx, hy⟩]

/-- C2 witness: a concrete blur-mode stroke over a 2×1 white composite whose
final mask is fully transparent at the origin. -/
theorem C2_outside_mask_reverts_to_snapshot_witness :
    (handleMouseUp idApi []
      (applyStrokeDrawing (solidSurface 2 1 blackPx) (solidSurface 2 1 Pixel.transparent)
        (handleMouseDown rotatingState))).1.canvas.data 0 0
      = rotatingState.canvas.data 0 0 :=
  C2_outside_mask_reverts_to_snapshot idApi [] rotatingState
    (solidSurface 2 1 blackPx) (solidSurface 2 1 Pixel.transparent) 0 0
    (by decide) (by decide) (by decide) rfl rfl rfl

/-! ## C4 — degenerate pixelation geometry -/

/-- A 4×4 blur-mode session: small enough that the computed downsample
dimensions round below one pixel. -/
def c4State : AppState where
  canvas := solidSurface 4 4 whitePx
  temp := solidSurface 4 4 blackPx
  holder := solidSurface 4 4 whitePx
  rotation := solidSurface 4 4 redPx
  blurred := solidSurface 4 4 Pixel.transparent
  offscreen := solidSurface 4 4 Pixel.transparent
  painting := Mode.blur
  blurAmount := 75
  isDown := true
  rotating := false

/-- For a 4×4 workspace the computed downsample dimensions floor to zero. -/
theorem pixelateDims_four : pixelateDims 4 4 = (0, 0) := by
  unfold pixelateDims scale PIXELATION_MIN_DIMENSION PIXELATION_BASE_DIMENSION
    MAX_PIXELATION_SCALE MIN_PIXELATION_SCALE
  norm_num

/-- C4 counterexample: on the 4×4 session the engine takes its
degenerate-geometry early return (`skipped = true`), yet the caller still
composites: the composite pixel under the mask changes (it takes the
blurred, unpixelated workspace content), so the prior composite is NOT left
unchanged and compositing is NOT skipped. -/
theorem C4_counterexample :
    (pixelateCanvas idApi [] (drawImage compOver c4State.blurred c4State.rotation)
      c4State.offscreen c4State.canvas).skipped = true ∧
    (handleMouseUp idApi [] c4State).1.canvas.data 0 0 ≠ c4State.canvas.data 0 0 := by
  have hd : pixelateDims
      (drawImage compOver c4State.blurred c4State.rotation).width
      (drawImage compOver c4State.blurred c4State.rotation).height = (0, 0) :=
    pixelateDims_four
  constructor
  · unfold pixelateCanvas
    rw [hd]
    norm_num
  · unfold handleMouseUp
    dsimp only
    rw [if_neg (by decide : ¬ c4State.painting = Mode.paint)]
    dsimp only
    rw [if_pos (by decide : c4State.painting ≠ Mode.undo)]
    unfold pixelateCanvas
    rw [hd]
    norm_num
    simp [c4State, idApi, drawImage, Surface.sample, Surface.clearAll,
      solidSurface, compOver, compSourceIn, compDestOver, Pixel.addP,
      Pixel.smul, Pixel.transparent, redPx, whitePx, blackPx]

/-- C4 amended: when the computed downsample dimensions round below 1,
`pixelateCanvas` aborts cleanly, leaving both the workspace and the scratch
buffer untouched (and logging a warning); but the caller is NOT signalled and
does not skip compositing — the blur, mask and composite-rebuild steps of
`handleMouseUp` still execute for the stroke. -/
theorem C4_degenerate_abort (api : CanvasApi) (rng : List ℕ)
    (inC off mainC : Surface)
    (hdeg : (pixelateDims inC.width inC.height).1 < 1 ∨
      (pixelateDims inC.width inC.height).2 < 1) :
    pixelateCanvas api rng inC off mainC = ⟨inC, off, true⟩ ∧
    (∀ st : AppState, ¬ st.painting = Mode.paint →
      Step.maskWorkspace ∈ (handleMouseUp api rng st).2 ∧
      Step.rebuildComposite ∈ (handleMouseUp api rng st).2) := by
  constructor
  · unfold pixelateCanvas
    rw [if_pos hdeg]
  · intro st hst
    unfold handleMouseUp
    dsimp only
    rw [if_neg hst]
    by_cases hu : st.painting = Mode.undo <;> simp [hu]

/-- C4 witness: the amended theorem applied to the 4×4 session. -/
theorem C4_degenerate_abort_witness :
    pixelateCanvas idApi [] (drawImage compOver c4State.blurred c4State.rotation)
      c4State.offscreen c4State.canvas =
      ⟨drawImage compOver c4State.blurred c4State.rotation, c4State.offscreen, true⟩ ∧
    Step.maskWorkspace ∈ (handleMouseUp idApi [] c4State).2 := by
  have h := C4_degenerate_abort idApi []
    (drawImage compOver c4State.blurred c4State.rotation) c4State.offscreen
    c4State.canvas (by rw [show (drawImage compOver c4State.blurred c4State.rotation).width = 4 from rfl,
      show (drawImage compOver c4State.blurred c4State.rotation).height = 4 from rfl,
      pixelateDims_four]; norm_num)
  exact ⟨h.1, (h.2 c4State (by decide)).1⟩

/-! ## C5 — surface dimension invariant -/

def smallImage : Surface := solidSurface 2 3 redPx

/-- `pixelateCanvas` never resizes the input canvas (it resizes only the
offscreen scratch buffer). -/
theorem pixelateCanvas_inCanvas_dims (api : CanvasApi) (rng : List ℕ)
    (a b c : Surface) :
    (pixelateCanvas api rng a b c).inCanvas.width = a.width ∧
    (pixelateCanvas api rng a b c).inCanvas.height = a.height := by
  unfold pixelateCanvas
  dsimp only
  by_cases hd : (pixelateDims a.width a.height).1 < 1 ∨
      (pixelateDims a.width a.height).2 < 1
  · rw [if_pos hd]
    exact ⟨rfl, rfl⟩
  · rw [if_neg hd]
    exact ⟨rfl, rfl⟩

/-- C5 counterexample: loading a 2×3 image into a freshly cleared session
resizes only five canvases — the offscreen scratch buffer keeps its 1×1
dimensions, so the six surfaces do NOT all report identical width and
height after the image load. -/
theorem C5_counterexample :
    ¬ allSixSameDims
      ((loadImage idApi smallImage (clearSession c4State)).getD (clearSession c4State)) := by
  intro h
  exact absurd h.2.1 (by decide)

/-- C5 amended: after every operation the five surfaces managed together
(composite, mask, snapshot, original, workspace) share identical width and
height: image load and rotation resize exactly those five jointly, session
clear shrinks all six to 1×1, and the stroke handlers never resize them.  The
scratch buffer is NOT kept in sync by image load or rotation (it is resized
only by a non-degenerate pixelation run and by session clear), so only five
of the six surfaces satisfy the invariant in general. -/
theorem C5_five_surface_dims (api : CanvasApi) (rng : List ℕ) (img : Surface)
    (st stL : AppState) (h5 : fiveSameDims st)
    (hL : loadImage api img st = some stL) :
    fiveSameDims stL ∧
    fiveSameDims (rotateCanvas st) ∧
    allSixSameDims (clearSession st) ∧
    fiveSameDims (handleMouseDown st) ∧
    fiveSameDims (handleMouseUp api rng st).1 := by
  obtain ⟨h1, h2, h3, h4, h5a, h6, h7, h8⟩ := h5
  refine ⟨?_, ?_, ?_, ?_, ?_⟩
  · unfold loadImage at hL
    by_cases h0 : img.width = 0 ∨ img.height = 0
    · rw [if_pos h0] at hL
      cases hL
    · rw [if_neg h0] at hL
      dsimp only at hL
      injection hL with hL
      subst hL
      exact ⟨rfl, rfl, rfl, rfl, rfl, rfl, rfl, rfl⟩
  · by_cases hr : st.rotating
    · unfold rotateCanvas
      rw [if_pos hr]
      exact ⟨h1, h2, h3, h4, h5a, h6, h7, h8⟩
    · unfold rotateCanvas
      rw [if_neg hr]
      exact ⟨rfl, rfl, rfl, rfl, rfl, rfl, rfl, rfl⟩
  · exact ⟨⟨rfl, rfl, rfl, rfl, rfl, rfl, rfl, rfl⟩, rfl, rfl⟩
  · exact ⟨h1, h2, h3, h4, h5a, h6, h7, h8⟩
  · unfold handleMouseUp
    dsimp only
    by_cases hp : st.painting = Mode.paint
    · rw [if_pos hp]
      exact ⟨h1, h2, h3, h4, h5a, h6, h7, h8⟩
    · rw [if_neg hp]
      dsimp only
      by_cases hu : st.painting = Mode.undo
      · rw [if_neg (by simp [hu])]
        exact ⟨h1, h2, h3, h4, h5a, h6, h7, h8⟩
      · rw [if_pos hu]
        obtain ⟨pw, ph⟩ := pixelateCanvas_inCanvas_dims api rng
          (drawImage compOver st.blurred st.rotation) st.offscreen st.canvas
        dsimp only [drawImage] at pw ph ⊢
        exact ⟨h1, h2, h3, h4, h5a, h6, pw.trans h7, ph.trans h8⟩

/-- C5 witness: the amended theorem applied to the image load of a 2×3 image
into a cleared session. -/
theorem C5_five_surface_dims_witness :
    fiveSameDims
      ((loadImage idApi smallImage (clearSession c4State)).getD (clearSession c4State)) ∧
    allSixSameDims (clearSession (clearSession c4State)) := by
  have h := C5_five_surface_dims idApi [] smallImage (clearSession c4State)
    ((loadImage idApi smallImage (clearSession c4State)).getD (clearSession c4State))
    ⟨rfl, rfl, rfl, rfl, rfl, rfl, rfl, rfl⟩ rfl
  exact ⟨h.1, h.2.2.1⟩

/-! ## C6 — four-fold rotation round-trip -/

/-- A 1×1 unlocked state whose snapshot surface holds non-trivial content. -/
def c6State : AppState where
  canvas := solidSurface 1 1 whitePx
  temp := solidSurface 1 1 Pixel.transparent
  holder := solidSurface 1 1 whitePx
  rotation := solidSurface 1 1 redPx
  blurred := solidSurface 1 1 redPx
  offscreen := solidSurface 1 1 Pixel.transparent
  painting := Mode.blur
  blurAmount := 75
  isDown := false
  rotating := false

/-- C6 counterexample: four successive rotations do NOT return every surface
to its original pixel content — each rotation resizes the snapshot surface
(clearing it) and never redraws it, so after four rotations the snapshot is
transparent instead of its original white. -/
theorem C6_counterexample :
    (rotateCanvas (rotateCanvas (rotateCanvas (rotateCanvas c6State)))).holder.data 0 0
      ≠ c6State.holder.data 0 0 := by
  simp [rotateCanvas, c6State, solidSurface, Pixel.transparent, whitePx]

/-- C6 amended: four successive 90° clockwise rotations restore the original
width and height of the five rotated surfaces (the scratch buffer is never
touched at all by rotation), but not every surface's content: the snapshot
surface is cleared by each rotation's resize and never redrawn, so it ends
fully transparent regardless of its original content (and the workspace is
redrawn from the original surface's capture rather than its own). -/
theorem C6_rotation_restores_dims_not_content (st : AppState)
    (hr : st.rotating = false) (h5 : fiveSameDims st) :
    (rotateCanvas (rotateCanvas (rotateCanvas (rotateCanvas st)))).canvas.width
        = st.canvas.width ∧
    (rotateCanvas (rotateCanvas (rotateCanvas (rotateCanvas st)))).canvas.height
        = st.canvas.height ∧
    (rotateCanvas (rotateCanvas (rotateCanvas (rotateCanvas st)))).temp.width
        = st.temp.width ∧
    (rotateCanvas (rotateCanvas (rotateCanvas (rotateCanvas st)))).temp.height
        = st.temp.height ∧
    (rotateCanvas (rotateCanvas (rotateCanvas (rotateCanvas st)))).holder.width
        = st.holder.width ∧
    (rotateCanvas (rotateCanvas (rotateCanvas (rotateCanvas st)))).holder.height
        = st.holder.height ∧
    (rotateCanvas (rotateCanvas (rotateCanvas (rotateCanvas st)))).rotation.width
        = st.rotation.width ∧
    (rotateCanvas (rotateCanvas (rotateCanvas (rotateCanvas st)))).rotation.height
        = st.rotation.height ∧
    (rotateCanvas (rotateCanvas (rotateCanvas (rotateCanvas st)))).blurred.width
        = st.blurred.width ∧
    (rotateCanvas (rotateCanvas (rotateCanvas (rotateCanvas st)))).blurred.height
        = st.blurred.height ∧
    (rotateCanvas (rotateCanvas (rotateCanvas (rotateCanvas st)))).offscreen
        = st.offscreen ∧
    (∀ x y, (rotateCanvas (rotateCanvas (rotateCanvas (rotateCanvas st)))).holder.data x y
        = Pixel.transparent) := by
  obtain ⟨h1, h2, h3, h4, h5a, h6, h7, h8⟩ := h5
  simp only [rotateCanvas, hr, if_false, Bool.false_eq_true, rotateDraw]
  simp_all

/-- C6 witness: the amended theorem applied to the 1×1 state. -/
theorem C6_rotation_restores_dims_not_content_witness :
    (rotateCanvas (rotateCanvas (rotateCanvas (rotateCanvas c6State)))).canvas.width
        = c6State.canvas.width ∧
    (∀ x y, (rotateCanvas (rotateCanvas (rotateCanvas (rotateCanvas c6State)))).holder.data x y
        = Pixel.transparent) := by
  have h := C6_rotation_restores_dims_not_content c6State rfl
    ⟨rfl, rfl, rfl, rfl, rfl, rfl, rfl, rfl⟩
  exact ⟨h.1, h.2.2.2.2.2.2.2.2.2.2.2⟩

/-! ## Bounds on the randomness source and the shuffle offset -/

/-- Both generators produce values in `[0, 1]` (the main-thread one can reach
1, the worker one cannot; both bounds hold for either). -/
theorem rand_bounds (m : RngModel) (hm : m = mainRng ∨ m = workerRng) (b : ℕ) :
    0 ≤ m.rand b ∧ m.rand b ≤ 1 := by
  rcases hm with h | h <;> subst h
  · unfold mainRng randomCryptoNumber
    refine ⟨by positivity, ?_⟩
    rw [div_le_one (by norm_num)]
    have hb : b % 256 ≤ 255 := by omega
    exact_mod_cast hb
  · unfold workerRng workerRandomCryptoNumber
    refine ⟨by positivity, ?_⟩
    rw [div_le_one (by norm_num)]
    have hb : b % 4294967296 ≤ 4294967296 := by omega
    exact_mod_cast hb

/-- Both sign helpers produce `1` or `-1`. -/
theorem sgn_cases (m : RngModel) (hm : m = mainRng ∨ m = workerRng) (b : ℕ) :
    m.sgn b = 1 ∨ m.sgn b = -1 := by
  rcases hm with h | h <;> subst h
  · unfold mainRng negativeOrPositive
    dsimp only
    split
    · exact Or.inr rfl
    · exact Or.inl rfl
  · unfold workerRng workerNegativeOrPositive
    dsimp only
    split
    · exact Or.inl rfl
    · exact Or.inr rfl

/-- The random offset `floor(u * maxOffset * sign)` with `u ∈ [0, 1]` and
`sign ∈ {−1, +1}` lies in `[−⌈maxOffset⌉, ⌊maxOffset⌋]`.  Note the LOWER end:
a negative draw floors to `−⌈maxOffset⌉`, which EXCEEDS `maxOffset` in
magnitude whenever `maxOffset` is not an integer. -/
theorem floor_mul_sign_bounds (mo u : ℚ) (hmo : 0 ≤ mo) (hu0 : 0 ≤ u)
    (hu1 : u ≤ 1) (s : ℤ) (hs : s = 1 ∨ s = -1) :
    -Int.ceil mo ≤ Int.floor (u * mo * (s : ℚ)) ∧
    Int.floor (u * mo * (s : ℚ)) ≤ Int.floor mo := by
  have hum0 : 0 ≤ u * mo := mul_nonneg hu0 hmo
  have hum1 : u * mo ≤ mo := by nlinarith
  rcases hs with h | h <;> subst h
  · push_cast
    rw [mul_one]
    constructor
    · have h0 : (0 : ℤ) ≤ ⌊u * mo⌋ := Int.floor_nonneg.mpr hum0
      have hc : (0 : ℤ) ≤ ⌈mo⌉ := Int.ceil_nonneg hmo
      omega
    · exact Int.floor_mono hum1
  · push_cast
    constructor
    · have hneg : -mo ≤ u * mo * (-1) := by nlinarith
      calc -⌈mo⌉ = ⌊-mo⌋ := (Int.floor_neg).symm
        _ ≤ ⌊u * mo * (-1)⌋ := Int.floor_mono hneg
    · have hle : u * mo * (-1) ≤ mo := by nlinarith
      exact Int.floor_mono hle

/-! ## C3 — shuffle offset boundedness -/

/-- The byte array of four active pixels with distinct red values. -/
def c3Array : List ℕ :=
  [10, 0, 0, 255, 20, 0, 0, 255, 30, 0, 0, 255, 40, 0, 0, 255]

/-- A draw stream: zero offsets and zero noise for the first three pixels,
then the maximal draw (byte 255) with a negative sign for the fourth. -/
def c3Rng : List ℕ :=
  [0, 0, 0, 0, 0, 0, 0, 0,
   0, 0, 0, 0, 0, 0, 0, 0,
   0, 0, 0, 0, 0, 0, 0, 0,
   255, 0, 0, 0, 0, 0, 0, 0]

/-- C3 counterexample: with a 250×250 reference canvas the shuffle range is
`maxOffset = 250 / 100 = 2.5`; the draw `u = 1` (byte 255, reachable on the
main thread) with a negative sign floors to offset `−3` — the magnitude of
the applied offset EXCEEDS `maxOffset`.  For list index `x = 3` over a
4-entry active list the bounds check passes and the source index is
`0 = x − 3`, outside `[x − maxOffset, x + maxOffset] = [0.5, 5.5]` and
different from `x`.  The end-to-end run of `shufflePixelsSync` on a 4-pixel
array confirms it: the value written at the fourth active pixel (byte offset
12, original value 40) is taken from the first (byte offset 0, value 10). -/
theorem C3_counterexample :
    max (250 : ℚ) 250 / SHUFFLE_RANGE_DIVISOR = 5 / 2 ∧
    (shuffleOffset mainRng (5 / 2) [255, 0]).1 = -3 ∧
    ¬ (-(5 / 2 : ℚ) ≤ ((-3 : ℤ) : ℚ) ∧ ((-3 : ℤ) : ℚ) ≤ 5 / 2) ∧
    safeElement 4 3 (-3) = 0 ∧
    ¬ ((((3 : ℚ) - 5 / 2 ≤ ((0 : ℕ) : ℚ)) ∧ (((0 : ℕ) : ℚ) ≤ 3 + 5 / 2)) ∨ (0 : ℕ) = 3) ∧
    (shufflePixelsSync c3Array 250 250 c3Rng).getD 12 0 = 10 ∧
    c3Array.getD 12 0 = 40 := by
  refine ⟨by norm_num [SHUFFLE_RANGE_DIVISOR], ?_, by norm_num, by decide,
    by norm_num, ?_, by decide⟩
  · unfold shuffleOffset drawRand drawSign popByte mainRng randomCryptoNumber
      negativeOrPositive
    norm_num [randomCryptoNumber]
  · norm_num [shufflePixelsSync, shufflePixelsCore, collectActive, c3Array,
      c3Rng, SHUFFLE_RANGE_DIVISOR, PIXEL_NOISE_RANGE, List.range_succ,
      shuffleWrite, shuffleOffset, safeElement, noisyChannel, drawRand,
      drawSign, popByte, mainRng, randomCryptoNumber, negativeOrPositive,
      jsRound, clampByte]
    decide

/-- C3 amended: the random offset drawn for an active pixel lies in
`[−⌈maxOffset⌉, ⌊maxOffset⌋]` (not `[−maxOffset, maxOffset]`: a negative
draw can floor to `−⌈maxOffset⌉`, exceeding `maxOffset` by less than one
when `maxOffset` is fractional), and the source list index equals `x` (the
out-of-range fallback) or lies within `[x − ⌈maxOffset⌉, x + ⌊maxOffset⌋]`,
in both the main-thread and the worker implementation. -/
theorem C3_shuffle_source_within_ceil (m : RngModel)
    (hm : m = mainRng ∨ m = workerRng) (maxOffset : ℚ) (hmo : 0 ≤ maxOffset)
    (rng : List ℕ) (len x : ℕ) :
    (-Int.ceil maxOffset ≤ (shuffleOffset m maxOffset rng).1 ∧
      (shuffleOffset m maxOffset rng).1 ≤ Int.floor maxOffset) ∧
    (safeElement len x (shuffleOffset m maxOffset rng).1 = x ∨
      ((x : ℤ) - Int.ceil maxOffset
          ≤ (safeElement len x (shuffleOffset m maxOffset rng).1 : ℤ) ∧
        (safeElement len x (shuffleOffset m maxOffset rng).1 : ℤ)
          ≤ (x : ℤ) + Int.floor maxOffset)) := by
  have hbound : -Int.ceil maxOffset ≤ (shuffleOffset m maxOffset rng).1 ∧
      (shuffleOffset m maxOffset rng).1 ≤ Int.floor maxOffset := by
    unfold shuffleOffset drawRand drawSign
    dsimp only
    exact floor_mul_sign_bounds maxOffset (m.rand (popByte rng).1) hmo
      (rand_bounds m hm _).1 (rand_bounds m hm _).2 _ (sgn_cases m hm _)
  refine ⟨hbound, ?_⟩
  unfold safeElement
  dsimp only
  split
  · exact Or.inl rfl
  · right
    rename_i hcond
    push_neg at hcond
    rw [Int.toNat_of_nonneg hcond.2]
    omega

/-- C3 witness: the amended theorem applied to the main-thread generator at
`maxOffset = 2.5` with the maximal negative draw. -/
theorem C3_shuffle_source_within_ceil_witness :
    -Int.ceil (5 / 2 : ℚ) ≤ (shuffleOffset mainRng (5 / 2) [255, 0]).1 ∧
    (shuffleOffset mainRng (5 / 2) [255, 0]).1 ≤ Int.floor (5 / 2 : ℚ) :=
  (C3_shuffle_source_within_ceil mainRng (Or.inl rfl) (5 / 2) (by norm_num)
    [255, 0] 4 3).1

/-! ## C9 — noise boundedness and alpha preservation -/

/-- `Math.round(u * s * 3)` lies in `[−3, 3]` whenever `u * s * 3 ∈ [−3, 3]`. -/
theorem jsRound_within (q : ℚ) (h1 : -3 ≤ q) (h2 : q ≤ 3) :
    -3 ≤ jsRound q ∧ jsRound q ≤ 3 := by
  unfold jsRound
  constructor
  · exact Int.le_floor.mpr (by push_cast; linarith)
  · have h4 : ⌊q + 1 / 2⌋ < 4 := Int.floor_lt.mpr (by push_cast; linarith)
    omega

/-- The noisy channel write: the clamped result differs from the pre-noise
channel value by at most 3 (`PIXEL_NOISE_RANGE`), for either generator, so
long as the pre-noise value is a valid byte. -/
theorem noisyChannel_close (m : RngModel) (hm : m = mainRng ∨ m = workerRng)
    (pre : ℕ) (hpre : pre ≤ 255) (rng : List ℕ) :
    (noisyChannel m PIXEL_NOISE_RANGE pre rng).1 ≤ pre + 3 ∧
    pre ≤ (noisyChannel m PIXEL_NOISE_RANGE pre rng).1 + 3 := by
  unfold noisyChannel PIXEL_NOISE_RANGE drawRand drawSign
  dsimp only
  obtain ⟨hu0, hu1⟩ := rand_bounds m hm (popByte rng).1
  have hs := sgn_cases m hm (popByte (popByte rng).2).1
  have hq : -3 ≤ m.rand (popByte rng).1 * ((m.sgn (popByte (popByte rng).2).1 : ℤ) : ℚ) * 3 ∧
      m.rand (popByte rng).1 * ((m.sgn (popByte (popByte rng).2).1 : ℤ) : ℚ) * 3 ≤ 3 := by
    rcases hs with h | h <;> rw [h] <;> push_cast <;> constructor <;> nlinarith
  obtain ⟨hr1, hr2⟩ := jsRound_within _ hq.1 hq.2
  unfold clampByte
  rw [min_def, max_def]
  split_ifs <;> omega

/-- The array positions `collectActive` records are congruent to the start
index modulo 4. -/
theorem collectActive_idx_mod (arr : List ℕ) (i : ℕ) :
    ∀ e ∈ collectActive arr i, e.idx % 4 = i % 4 := by
  induction arr, i using collectActive.induct with
  | case1 r g b a rest i ih =>
    intro e he
    rw [collectActive] at he
    rcases List.mem_append.mp he with h | h
    · split at h
      · rw [List.mem_singleton] at h
        subst h
        rfl
      · simp at h
    · have := ih e h
      omega
  | case2 arr i h =>
    intro e he
    rcases arr with _ | ⟨r, _ | ⟨g, _ | ⟨b, _ | ⟨a, rest⟩⟩⟩⟩ <;>
      first
        | exact absurd rfl (h r g b a rest)
        | simp [collectActive] at he

/-- Every entry the shuffle can read from the pass-one list (the default
included) sits at a byte offset divisible by 4. -/
theorem holder_getD_idx_mod (arr : List ℕ) (x : ℕ) :
    ((collectActive arr 0).getD x ⟨0, 0, 0, 0⟩).idx % 4 = 0 := by
  by_cases hx : x < (collectActive arr 0).length
  · have hmem := List.get_mem (collectActive arr 0) x hx
    have := collectActive_idx_mod arr 0 _ hmem
    simpa [List.getD_eq_getElem?_getD, List.getElem?_eq_getElem hx,
      List.get_eq_getElem] using this
  · simp [List.getD_eq_getElem?_getD, List.getElem?_eq_none (le_of_not_lt hx)]

/-- Updating a list at one position leaves every other position's `getD`
unchanged. -/
theorem getD_set_ne (l : List ℕ) (i j v : ℕ) (h : i ≠ j) :
    (l.set i v).getD j 0 = l.getD j 0 := by
  simp [List.getD_eq_getElem?_getD, List.getElem?_set_ne h]

/-- A fold preserves any invariant its step preserves. -/
theorem foldl_preserve {α β : Type} (P : β → Prop) (f : β → α → β)
    (hf : ∀ b a, P b → P (f b a)) : ∀ (l : List α) (b : β), P b → P (l.foldl f b)
  | [], _, hb => hb
  | a :: l, b, hb => foldl_preserve P f hf l (f b a) (hf b a hb)

/-- One shuffle iteration writes only the R, G, B slots of an active entry
(offsets ≡ 0, 1, 2 mod 4), so bytes at offsets ≡ 3 mod 4 — the alpha
channel — keep their original values. -/
theorem shuffleWrite_preserves_alpha (m : RngModel) (arr0 : List ℕ)
    (holder : List ActiveEntry) (maxOffset noiseRange : ℚ)
    (hidx : ∀ x, (holder.getD x ⟨0, 0, 0, 0⟩).idx % 4 = 0)
    (st : List ℕ × List ℕ) (x : ℕ)
    (h : ∀ j, j % 4 = 3 → st.1.getD j 0 = arr0.getD j 0) :
    ∀ j, j % 4 = 3 →
      (shuffleWrite m holder maxOffset noiseRange st x).1.getD j 0 = arr0.getD j 0 := by
  intro j hj
  unfold shuffleWrite
  dsimp only
  have hi := hidx x
  rw [getD_set_ne _ _ _ _ (by omega), getD_set_ne _ _ _ _ (by omega),
    getD_set_ne _ _ _ _ (by omega)]
  exact h j hj

/-- Alpha preservation for the shared shuffle core. -/
theorem shufflePixelsCore_alpha (m : RngModel) (arr : List ℕ) (w h : ℕ)
    (d n : ℚ) (rng : List ℕ) (j : ℕ) (hj : j % 4 = 3) :
    (shufflePixelsCore m arr w h d n rng).getD j 0 = arr.getD j 0 := by
  unfold shufflePixelsCore
  dsimp only
  exact foldl_preserve
    (fun st => ∀ j, j % 4 = 3 → st.1.getD j 0 = arr.getD j 0)
    (shuffleWrite m (collectActive arr 0)
      (max (w : ℚ) (h : ℚ) / d) n)
    (fun b a hb => shuffleWrite_preserves_alpha m arr (collectActive arr 0)
      _ n (holder_getD_idx_mod arr) b a hb)
    (List.range (collectActive arr 0).length) (arr, rng)
    (fun _ _ => rfl) j hj

/-- C9: in both shuffle implementations, (i) every channel write differs from
the pre-noise (shuffled) channel value by at most `noiseRange = 3` after
clamping to the valid byte range — `noisyChannel` is exactly the channel-write
expression of `shuffleWrite` — and (ii) the alpha byte of every pixel is
never modified by a shuffle run. -/
theorem C9_noise_bounded_alpha_untouched :
    (∀ m : RngModel, m = mainRng ∨ m = workerRng → ∀ pre : ℕ, pre ≤ 255 →
      ∀ rng : List ℕ,
        (noisyChannel m PIXEL_NOISE_RANGE pre rng).1 ≤ pre + 3 ∧
        pre ≤ (noisyChannel m PIXEL_NOISE_RANGE pre rng).1 + 3) ∧
    (∀ (arr : List ℕ) (w h : ℕ) (rng : List ℕ) (j : ℕ), j % 4 = 3 →
      (shufflePixelsSync arr w h rng).getD j 0 = arr.getD j 0) ∧
    (∀ (arr : List ℕ) (w h : ℕ) (d n : ℚ) (rng : List ℕ) (j : ℕ), j % 4 = 3 →
      (shufflePixels arr w h d n rng).getD j 0 = arr.getD j 0) := by
  refine ⟨noisyChannel_close, ?_, ?_⟩
  · intro arr w h rng j hj
    exact shufflePixelsCore_alpha mainRng arr w h _ _ rng j hj
  · intro arr w h d n rng j hj
    exact shufflePixelsCore_alpha workerRng arr w h d n rng j hj

/-- C9 witness: the theorem applied at a concrete channel value with the
maximal draw, and at the alpha byte of the concrete 4-pixel array. -/
theorem C9_noise_bounded_alpha_untouched_witness :
    ((noisyChannel mainRng PIXEL_NOISE_RANGE 200 [255, 255]).1 ≤ 200 + 3 ∧
      200 ≤ (noisyChannel mainRng PIXEL_NOISE_RANGE 200 [255, 255]).1 + 3) ∧
    (shufflePixelsSync c3Array 250 250 c3Rng).getD 3 0 = c3Array.getD 3 0 :=
  ⟨C9_noise_bounded_alpha_untouched.1 mainRng (Or.inl rfl) 200 (by norm_num)
      [255, 255],
    C9_noise_bounded_alpha_untouched.2.1 c3Array 250 250 c3Rng 3 (by norm_num)⟩

end SubstanceScrubber
